import Mathlib

/-!
# Verification of the Agent Control Panel core

A shallow embedding, in Lean 4, of the core of the Python-Agent-Control-panel
repository (TypeScript/JavaScript), together with theorems settling the frozen
claims about its specification.

Embedded components:

* the Similarity Selector (`src/shared/similarity.ts`):
  `tokenize`, `jaccardSimilarity`, `isTooSimilar`, `pickNextPost`;
* the Message Validator (`src/shared` schema module):
  `isObject`, `hasKeys`, `validateMessage` over a model of JavaScript values;
* the Command Transport (`ACPTransport.sendCommand` / `dispatchWithRetry`);
* the Run Orchestrator (`runWorkflow`, `retryWithBackoff`, the pause wait
  loop, the step-through wait loop and the control-message handler of
  `src/userscript/agent.user.js`).

JavaScript numbers that only ever hold exact small rationals are modelled as
`ℚ`; counters and indices as `Nat`.  JavaScript `Set` objects of strings are
modelled as `Finset String`.
-/

/-! ## Similarity Selector (src/shared/similarity.ts) -/

/-- One character of the `toLowerCase().replace(/[^a-z0-9\s]/g, " ")`
pipeline of `tokenize`: lower-case the character, keep it when it is a
lower-case letter, a digit or whitespace, and turn it into a space
otherwise. -/
def tokenizeChar (c : Char) : Char :=
  let c := c.toLower
  if ('a' ≤ c ∧ c ≤ 'z') ∨ ('0' ≤ c ∧ c ≤ '9') ∨ c.isWhitespace then c else ' '

/-- `split(/\s+/).filter(Boolean)`: the maximal non-whitespace runs of a
character list.  `acc` is the current run, reversed. -/
def splitTokens : List Char → List Char → List String
  | [], [] => []
  | [], acc => [String.mk acc.reverse]
  | c :: cs, acc =>
    if c.isWhitespace then
      match acc with
      | [] => splitTokens cs []
      | _ => String.mk acc.reverse :: splitTokens cs []
    else splitTokens cs (c :: acc)

/-- `tokenize` (similarity.ts lines 1-6): lower-case, replace everything that
is not a letter, digit or whitespace by a space, split on whitespace and drop
empty strings. -/
def tokenize (text : String) : List String :=
  splitTokens (text.data.map tokenizeChar) []

/-- `jaccardSimilarity` (similarity.ts lines 8-17): token sets of both
strings; `1` when both sets are empty, otherwise the ratio of the
intersection size to the union size.  The ratio is written `mkRat i u`,
which equals `(i : ℚ) / (u : ℚ)` (see `jaccardSimilarity_eq_div`) and lets
the kernel evaluate the function on concrete strings. -/
def jaccardSimilarity (a b : String) : ℚ :=
  if (tokenize a).toFinset.card = 0 ∧ (tokenize b).toFinset.card = 0 then 1
  else
    mkRat (((tokenize a).toFinset ∩ (tokenize b).toFinset).card)
      (((tokenize a).toFinset ∪ (tokenize b).toFinset).card)

/-- The branch of `jaccardSimilarity` that divides is literally the division
`|A ∩ B| / |A ∪ B|` from the source. -/
theorem jaccardSimilarity_eq_div (a b : String)
    (h : ¬((tokenize a).toFinset.card = 0 ∧ (tokenize b).toFinset.card = 0)) :
    jaccardSimilarity a b =
      (((tokenize a).toFinset ∩ (tokenize b).toFinset).card : ℚ) /
        (((tokenize a).toFinset ∪ (tokenize b).toFinset).card : ℚ) := by
  rw [jaccardSimilarity, if_neg h, Rat.mkRat_eq_div]
  push_cast
  rfl

/-- `isTooSimilar` (similarity.ts lines 19-20): some recent entry has
similarity to the candidate that is at least the threshold. -/
def isTooSimilar (candidate : String) (recent : List String) (threshold : ℚ) : Bool :=
  recent.any (fun item => threshold ≤ jaccardSimilarity candidate item)

/-- The `{value, reason}` result record of `pickNextPost`. -/
structure PickResult where
  value : String
  reason : String
deriving DecidableEq, Repr

/-- The `for (const candidate of pool)` loop body of `pickNextPost`
(similarity.ts lines 27-35): skip a candidate equal to `recent[0]`, skip a
candidate that is too similar to a recent entry, return the first survivor. -/
def pickLoop (recent : List String) (threshold : ℚ) : List String → Option String
  | [] => none
  | candidate :: rest =>
    if recent.head? = some candidate then pickLoop recent threshold rest
    else if isTooSimilar candidate recent threshold then pickLoop recent threshold rest
    else some candidate

/-- `pickNextPost` (similarity.ts lines 22-40).  In the source `threshold`
defaults to `0.8`; the parameter is explicit here. -/
def pickNextPost (pool recent : List String) (threshold : ℚ) : PickResult :=
  match pickLoop recent threshold pool with
  | some candidate => ⟨candidate, "selected"⟩
  | none => ⟨pool.headD "", "fallback: no unique candidates under similarity threshold"⟩

example : pickNextPost ["A quick update", "A quick update", "Different news"]
    ["A quick update"] (mkRat 4 5) = ⟨"Different news", "selected"⟩ := by decide

example : jaccardSimilarity "Hello world" "Hello world!!" = 1 := by decide

example : tokenize "Hello, WORLD 42" = ["hello", "world", "42"] := by decide

/-! ### Claims about the Similarity Selector -/

theorem jaccardSimilarity_symm (a b : String) :
    jaccardSimilarity a b = jaccardSimilarity b a := by
  by_cases ha : (tokenize a).toFinset.card = 0 <;>
    by_cases hb : (tokenize b).toFinset.card = 0 <;>
      simp [jaccardSimilarity, ha, hb, Finset.inter_comm, Finset.union_comm]

theorem jaccardSimilarity_self (a : String) : jaccardSimilarity a a = 1 := by
  by_cases h : (tokenize a).toFinset.card = 0
  · simp [jaccardSimilarity, h]
  · rw [jaccardSimilarity_eq_div a a (by simp [h])]
    rw [Finset.inter_self, Finset.union_self, div_self]
    exact_mod_cast h

/-- C9: `similarity` is symmetric in its two arguments, and the similarity of
any string to itself is `1`; in particular this holds for every non-empty
string and for the empty string. -/
theorem similarity_symm_and_self :
    (∀ a b : String, jaccardSimilarity a b = jaccardSimilarity b a) ∧
    (∀ a : String, jaccardSimilarity a a = 1) :=
  ⟨jaccardSimilarity_symm, jaccardSimilarity_self⟩

/-- C10: `jaccardSimilarity` is total and always lands in `[0, 1]`: the
both-empty case returns `1` before any division, and otherwise the union is
non-empty and contains the intersection. -/
theorem jaccardSimilarity_mem_unit_interval (a b : String) :
    0 ≤ jaccardSimilarity a b ∧ jaccardSimilarity a b ≤ 1 := by
  by_cases h : (tokenize a).toFinset.card = 0 ∧ (tokenize b).toFinset.card = 0
  · simp [jaccardSimilarity, h]
  · rw [jaccardSimilarity_eq_div a b h]
    have hsub : (tokenize a).toFinset ∩ (tokenize b).toFinset ⊆
        (tokenize a).toFinset ∪ (tokenize b).toFinset := Finset.inter_subset_union
    have hcard := Finset.card_le_card hsub
    have hupos : 0 < ((tokenize a).toFinset ∪ (tokenize b).toFinset).card := by
      rcases not_and_or.mp h with ha | hb
      · exact lt_of_lt_of_le (Nat.pos_of_ne_zero ha)
          (Finset.card_le_card Finset.subset_union_left)
      · exact lt_of_lt_of_le (Nat.pos_of_ne_zero hb)
          (Finset.card_le_card Finset.subset_union_right)
    constructor
    · positivity
    · rw [div_le_one (by exact_mod_cast hupos)]
      exact_mod_cast hcard

/-- A candidate survives the scan of `pickNextPost` when it differs from the
most recent selection and is not too similar to any recent entry. -/
def survivesScan (recent : List String) (threshold : ℚ) (candidate : String) : Bool :=
  !(recent.head? == some candidate) && !(isTooSimilar candidate recent threshold)

theorem pickLoop_eq_find (recent : List String) (threshold : ℚ) (pool : List String) :
    pickLoop recent threshold pool = pool.find? (survivesScan recent threshold) := by
  induction pool with
  | nil => rfl
  | cons candidate rest ih =>
    rw [pickLoop]
    by_cases h1 : recent.head? = some candidate
    · rw [if_pos h1, ih, List.find?_cons_of_neg]
      simp [survivesScan, h1]
    · by_cases h2 : isTooSimilar candidate recent threshold
      · rw [if_neg h1, if_pos h2, ih, List.find?_cons_of_neg]
        simp [survivesScan, h2]
      · rw [if_neg h1, if_neg h2, List.find?_cons_of_pos]
        simp [survivesScan, h1, h2]

/-- C7: `pickNextPost` scans the pool in order and returns the first
candidate that neither equals `history[0]` nor has similarity `≥ threshold`
to some history entry, tagged `"selected"`; when no candidate survives it
falls back to the first pool entry (or the empty string), tagged with the
fallback reason.  A candidate whose similarity to a history entry is exactly
the threshold is excluded. -/
theorem pickNextPost_spec (pool recent : List String) (threshold : ℚ) :
    (pickNextPost pool recent threshold =
      match pool.find? (survivesScan recent threshold) with
      | some c => ⟨c, "selected"⟩
      | none => ⟨pool.headD "", "fallback: no unique candidates under similarity threshold"⟩) ∧
    (∀ c : String, survivesScan recent threshold c = true ↔
      (¬(recent.head? = some c) ∧ ∀ item ∈ recent, jaccardSimilarity c item < threshold)) := by
  constructor
  · rw [pickNextPost, pickLoop_eq_find]
  · intro c
    simp [survivesScan, isTooSimilar, List.any_eq_true, not_le]

/-! ## Message Validator (src/shared schema module)

A model of the JavaScript runtime values that can reach `validateMessage`
through `JSON`-shaped channels: null, undefined, booleans, numbers, strings,
arrays and plain objects (association lists of fields).  The only property
keys the validator ever consults are `type`, `payload` and the identifier
field names of the schema table, none of which is a numeric index or
`length`, so property access on arrays is modelled as absent. -/

inductive JSValue where
  | nullV : JSValue
  | undefV : JSValue
  | boolV : Bool → JSValue
  | numV : ℚ → JSValue
  | strV : String → JSValue
  | arrV : List JSValue → JSValue
  | objV : List (String × JSValue) → JSValue

mutual

/-- Structural value equality on `JSValue`.  JavaScript `Map` key comparison
(SameValueZero) agrees with this on primitive keys, which are the only keys
the transport ever uses (`requestId` values). -/
def JSValue.beq : JSValue → JSValue → Bool
  | .nullV, .nullV => true
  | .undefV, .undefV => true
  | .boolV a, .boolV b => a == b
  | .numV a, .numV b => a == b
  | .strV a, .strV b => a == b
  | .arrV a, .arrV b => JSValue.beqList a b
  | .objV a, .objV b => JSValue.beqObj a b
  | _, _ => false

def JSValue.beqList : List JSValue → List JSValue → Bool
  | [], [] => true
  | x :: xs, y :: ys => JSValue.beq x y && JSValue.beqList xs ys
  | _, _ => false

def JSValue.beqObj : List (String × JSValue) → List (String × JSValue) → Bool
  | [], [] => true
  | (k1, v1) :: xs, (k2, v2) :: ys => k1 == k2 && JSValue.beq v1 v2 && JSValue.beqObj xs ys
  | _, _ => false

end

/-- Property access `value[key]`; `none` means the property is absent
(JavaScript would yield `undefined`). -/
def JSValue.getField : JSValue → String → Option JSValue
  | .objV fields, key => fields.lookup key
  | _, _ => none

/-- `isObject` (schema module lines 173-174): `typeof value === "object"`
and not `null`; arrays satisfy this in JavaScript. -/
def isObject : JSValue → Bool
  | .objV _ => true
  | .arrV _ => true
  | _ => false

/-- `hasKeys` (schema module lines 176-177): every listed key is present on
the value (the `in` operator checks presence only). -/
def hasKeys (value : JSValue) (keys : List String) : Bool :=
  keys.all (fun key => (value.getField key).isSome)

/-- Modelled from the spec: the repository imports the known-type table from
`message-schema.json`, which is not among the available source files.  The
table below maps each message-type discriminator to the required payload
field names, following the message declarations of the shared schema module
(`CONTROL_*` and `AGENT_*` payload types) and the spec message list; the
schema-validation test in the sources accepts `CONTROL_PAUSE_RUN` with
payload `{runId}` and rejects an empty payload, which this table matches. -/
def schemaTypes : List (String × List String) :=
  [ ("CONTROL_HELLO", ["requestId", "appVersion", "protocolVersion"]),
    ("CONTROL_PING", ["requestId"]),
    ("CONTROL_START_RUN", ["runId", "jobId", "workflow", "rows", "settings", "resumeFrom"]),
    ("CONTROL_PAUSE_RUN", ["runId"]),
    ("CONTROL_RESUME_RUN", ["runId"]),
    ("CONTROL_STOP_RUN", ["runId"]),
    ("CONTROL_KILL_SWITCH", ["enabled"]),
    ("CONTROL_STEP_NEXT", ["runId", "rowIndex", "stepIndex"]),
    ("AGENT_ACK", ["requestId", "commandType", "ok", "error"]),
    ("AGENT_STATUS", ["runId", "status", "currentRowIndex", "message", "successCount", "failureCount"]),
    ("AGENT_LOG", ["runId", "rowIndex", "stepIndex", "level", "message", "timestamp"]),
    ("AGENT_ROW_RESULT", ["runId", "rowIndex", "status", "error", "artifacts"]),
    ("AGENT_HELLO", ["requestId", "agentVersion", "protocolVersion", "tabUrl", "site"]),
    ("AGENT_PONG", ["requestId", "tabUrl", "site", "uptimeMs"]) ]

/-- `baseTypeKeys = Object.keys(schema.types)` (schema module line 171). -/
def baseTypeKeys : List String := schemaTypes.map Prod.fst

/-- `validateMessage` (schema module lines 179-192): the input must be a
keyed record, its `type` a string listed in the known-type table, its
`payload` a keyed record carrying every required field name of that type.
The function is total: it returns `false` on any other input and never
throws. -/
def validateMessage (message : JSValue) : Bool :=
  if !(isObject message) then false
  else
    match message.getField "type" with
    | some (.strV t) =>
      if !(baseTypeKeys.contains t) then false
      else
        match message.getField "payload" with
        | some p =>
          if !(isObject p) then false
          else hasKeys p ((schemaTypes.lookup t).getD [])
        | none => false
    | _ => false

example : validateMessage (.objV [("type", .strV "CONTROL_PAUSE_RUN"),
    ("payload", .objV [("runId", .strV "run-123")])]) = true := by decide

example : validateMessage (.objV [("type", .strV "CONTROL_PAUSE_RUN"),
    ("payload", .objV [])]) = false := by decide

/-- C8: `validateMessage` accepts exactly the keyed records whose `type`
field is a string listed in the known-type table and whose `payload` field
is a keyed record carrying every required field name of that type as a key
(presence only); every other input is rejected with `false` (the function is
total, so it never throws). -/
theorem validateMessage_iff (message : JSValue) :
    validateMessage message = true ↔
      (isObject message = true ∧
       ∃ t, message.getField "type" = some (.strV t) ∧
         t ∈ baseTypeKeys ∧
         ∃ p, message.getField "payload" = some p ∧ isObject p = true ∧
           ∀ key ∈ (schemaTypes.lookup t).getD [], (p.getField key).isSome = true) := by
  rw [validateMessage]
  cases hobj : isObject message with
  | false => simp [hobj]
  | true =>
    cases hty : message.getField "type" with
    | none => simp [hty]
    | some v =>
      cases v with
      | nullV => simp [hty]
      | undefV => simp [hty]
      | boolV b => simp [hty]
      | numV q => simp [hty]
      | arrV xs => simp [hty]
      | objV fields => simp [hty]
      | strV t =>
        cases hmem : baseTypeKeys.contains t with
        | false =>
          have hmem2 : t ∉ baseTypeKeys := by simpa using hmem
          simp [hty, hmem, hmem2]
        | true =>
          have hmem2 : t ∈ baseTypeKeys := by simpa using hmem
          cases hp : message.getField "payload" with
          | none => simp [hty, hmem, hmem2, hp]
          | some p =>
            cases hpo : isObject p with
            | false => simp [hty, hmem, hmem2, hp, hpo]
            | true => simp [hty, hmem, hmem2, hp, hpo, hasKeys, List.all_eq_true]

/-! ## Command Transport (ACPTransport, controller transport module)

`sendCommand` (lines 206-218) and `dispatchWithRetry` (lines 220-239) of the
transport module.  The promise resolve/reject callbacks stored in the pending
map are represented by the returned `SendOutcome`; the broadcasts, timer
waits and the final rejection are recorded as an event trace.  Incoming
acknowledgment handling (`handleIncoming`) removes a pending entry and
resolves it; the no-acknowledgment scenario of claim C1 is the execution in
which no such message ever arrives, so every timer callback finds its entry
still pending. -/

/-- JavaScript truthiness test (`if (!requestId)`), restricted to the values
of `JSValue`; `NaN` is not representable in the rational number model. -/
def jsFalsy : JSValue → Bool
  | .nullV => true
  | .undefV => true
  | .boolV b => !b
  | .numV q => q == 0
  | .strV s => s == ""
  | .arrV _ => false
  | .objV _ => false

/-- `extractRequestId` (transport lines 259-265): when the message has a
`payload` that is a truthy object, return `payload.requestId ?? null`;
otherwise return `null`. -/
def extractRequestId (message : JSValue) : JSValue :=
  match message.getField "payload" with
  | some p =>
    if isObject p then
      match p.getField "requestId" with
      | some .nullV => .nullV
      | some .undefV => .nullV
      | some v => v
      | none => .nullV
    else .nullV
  | none => .nullV

/-- One entry of the `pending` map (transport lines 162-171), minus the two
promise callbacks, which are represented by the outcome of the run. -/
structure PendingEntry where
  retriesLeft : Nat
  message : JSValue
  timeoutMs : Nat

/-- The mutable state of an `ACPTransport` instance that `sendCommand`
touches: the `pending` map, keyed by request id. -/
structure TransportState where
  pending : List (JSValue × PendingEntry)

/-- Observable actions of a `sendCommand` execution: a broadcast of a
message, a full `timeoutMs` timer elapsing, and the rejection of the pending
promise. -/
inductive TransportEv where
  | send : JSValue → TransportEv
  | timerWait : Nat → TransportEv
  | reject : String → TransportEv

/-- The outcome of the promise returned by `sendCommand`. -/
inductive SendOutcome where
  | rejected : String → SendOutcome
  | dispatched : JSValue → SendOutcome

/-- `sendCommand` (transport lines 206-218): reject a message without a
truthy `requestId`; reject when any command is pending (`pending.size >= 1`);
otherwise store the pending entry and run `dispatchWithRetry`, whose
synchronous part broadcasts the message once and arms the timer.  In the
source `timeoutMs` defaults to `4000` and `retries` to `2`; the parameters
are explicit here. -/
def sendCommand (st : TransportState) (message : JSValue) (timeoutMs retries : Nat) :
    SendOutcome × TransportState × List TransportEv :=
  let requestId := extractRequestId message
  if jsFalsy requestId then
    (.rejected "Command messages must include a requestId.", st, [])
  else if st.pending.length ≥ 1 then
    (.rejected "Another command is already in flight.", st, [])
  else
    (.dispatched requestId,
     ⟨(requestId, ⟨retries, message, timeoutMs⟩) :: st.pending⟩,
     [.send message])

/-- The timer callbacks of `dispatchWithRetry` (transport lines 226-238)
under the assumption that no acknowledgment ever arrives, starting from an
entry with `retriesLeft` remaining retries: each expiry of the full
`timeoutMs` timer either rejects (no retries left) or decrements the counter
and re-broadcasts the identical message, re-arming the timer. -/
def noAckTimerRun (message : JSValue) (timeoutMs : Nat) : Nat → List TransportEv
  | 0 => [.timerWait timeoutMs, .reject "No ACK received from agent."]
  | n + 1 => .timerWait timeoutMs :: .send message :: noAckTimerRun message timeoutMs n

/-- The complete execution of `sendCommand` together with every timer
callback of `dispatchWithRetry`, under the assumption that no acknowledgment
message ever arrives (so `handleIncoming` never resolves the pending entry).
On the final expiry the entry is deleted from `pending` and the promise is
rejected with the no-acknowledgment error. -/
def sendCommandNoAck (st : TransportState) (message : JSValue) (timeoutMs retries : Nat) :
    SendOutcome × TransportState × List TransportEv :=
  match sendCommand st message timeoutMs retries with
  | (.dispatched requestId, st1, evs) =>
      (.rejected "No ACK received from agent.",
       ⟨st1.pending.filter (fun e => !(JSValue.beq e.1 requestId))⟩,
       evs ++ noAckTimerRun message timeoutMs retries)
  | r => r


/-- Number of broadcasts in a transport trace. -/
def countSends : List TransportEv → Nat
  | [] => 0
  | .send _ :: rest => countSends rest + 1
  | _ :: rest => countSends rest

/-- Total timer time elapsed in a transport trace, in milliseconds. -/
def totalWaitMs : List TransportEv → Nat
  | [] => 0
  | .timerWait ms :: rest => ms + totalWaitMs rest
  | _ :: rest => totalWaitMs rest

/-! ### Claims about the Command Transport -/

mutual

theorem JSValue.beq_refl : ∀ v : JSValue, JSValue.beq v v = true
  | .nullV => rfl
  | .undefV => rfl
  | .boolV b => by simp [JSValue.beq]
  | .numV q => by simp [JSValue.beq]
  | .strV s => by simp [JSValue.beq]
  | .arrV xs => by simp [JSValue.beq, JSValue.beqList_refl xs]
  | .objV xs => by simp [JSValue.beq, JSValue.beqObj_refl xs]

theorem JSValue.beqList_refl : ∀ xs : List JSValue, JSValue.beqList xs xs = true
  | [] => rfl
  | x :: xs => by simp [JSValue.beqList, JSValue.beq_refl x, JSValue.beqList_refl xs]

theorem JSValue.beqObj_refl : ∀ xs : List (String × JSValue), JSValue.beqObj xs xs = true
  | [] => rfl
  | (k, v) :: xs => by simp [JSValue.beqObj, JSValue.beq_refl v, JSValue.beqObj_refl xs]

end

theorem noAckTimerRun_trace (message : JSValue) (timeoutMs : Nat) :
    ∀ n, TransportEv.send message :: noAckTimerRun message timeoutMs n =
      (List.replicate (n + 1) [TransportEv.send message, TransportEv.timerWait timeoutMs]).flatten
        ++ [TransportEv.reject "No ACK received from agent."] := by
  intro n
  induction n with
  | zero => rfl
  | succ k ih =>
    have h1 : TransportEv.send message :: noAckTimerRun message timeoutMs (k + 1) =
        TransportEv.send message :: TransportEv.timerWait timeoutMs ::
          (TransportEv.send message :: noAckTimerRun message timeoutMs k) := rfl
    rw [h1, ih]
    simp [List.replicate_succ, List.flatten_cons]

theorem countSends_noAckRun (message : JSValue) (timeoutMs : Nat) :
    ∀ n, countSends (noAckTimerRun message timeoutMs n) = n := by
  intro n
  induction n with
  | zero => rfl
  | succ k ih =>
    simp only [noAckTimerRun, countSends] at ih ⊢
    omega

theorem totalWaitMs_noAckRun (message : JSValue) (timeoutMs : Nat) :
    ∀ n, totalWaitMs (noAckTimerRun message timeoutMs n) = (n + 1) * timeoutMs := by
  intro n
  induction n with
  | zero => simp [noAckTimerRun, totalWaitMs]
  | succ k ih =>
    show timeoutMs + totalWaitMs (TransportEv.send message :: noAckTimerRun message timeoutMs k) =
      (k + 1 + 1) * timeoutMs
    show timeoutMs + totalWaitMs (noAckTimerRun message timeoutMs k) = (k + 1 + 1) * timeoutMs
    rw [ih]
    ring

/-- C1: with a truthy `requestId` and no command pending, a `sendCommand`
that never receives an acknowledgment rejects with the no-acknowledgment
error only after exactly `retries + 1` broadcasts of the identical message,
a full `timeoutMs` timer elapsing after each broadcast — `(retries + 1) *
timeoutMs` total — and the pending entry is removed on rejection. -/
theorem sendCommand_noAck_spec (st : TransportState) (message : JSValue)
    (timeoutMs retries : Nat)
    (hreq : jsFalsy (extractRequestId message) = false)
    (hempty : st.pending = []) :
    (sendCommandNoAck st message timeoutMs retries).1 =
      .rejected "No ACK received from agent." ∧
    (sendCommandNoAck st message timeoutMs retries).2.1.pending = [] ∧
    (sendCommandNoAck st message timeoutMs retries).2.2 =
      (List.replicate (retries + 1) [TransportEv.send message, TransportEv.timerWait timeoutMs]).flatten
        ++ [TransportEv.reject "No ACK received from agent."] ∧
    countSends (sendCommandNoAck st message timeoutMs retries).2.2 = retries + 1 ∧
    totalWaitMs (sendCommandNoAck st message timeoutMs retries).2.2 =
      (retries + 1) * timeoutMs := by
  have hsc : sendCommand st message timeoutMs retries =
      (.dispatched (extractRequestId message),
       ⟨[(extractRequestId message, ⟨retries, message, timeoutMs⟩)]⟩,
       [.send message]) := by
    rw [sendCommand]
    simp [hreq, hempty]
  have hna : sendCommandNoAck st message timeoutMs retries =
      (.rejected "No ACK received from agent.",
       ⟨[]⟩,
       TransportEv.send message :: noAckTimerRun message timeoutMs retries) := by
    rw [sendCommandNoAck, hsc]
    simp [JSValue.beq_refl]
  rw [hna]
  refine ⟨rfl, rfl, ?_, ?_, ?_⟩
  · exact noAckTimerRun_trace message timeoutMs retries
  · show countSends (noAckTimerRun message timeoutMs retries) + 1 = retries + 1
    rw [countSends_noAckRun]
  · show totalWaitMs (noAckTimerRun message timeoutMs retries) = (retries + 1) * timeoutMs
    exact totalWaitMs_noAckRun message timeoutMs retries

/-- A sample command message carrying a non-empty `requestId`. -/
def samplePingMsg : JSValue :=
  .objV [("type", .strV "CONTROL_PING"), ("payload", .objV [("requestId", .strV "r1")])]

theorem sendCommand_noAck_spec_witness :
    jsFalsy (extractRequestId samplePingMsg) = false ∧
    (TransportState.mk []).pending = [] ∧
    ((sendCommandNoAck ⟨[]⟩ samplePingMsg 4000 2).1 =
        .rejected "No ACK received from agent." ∧
      (sendCommandNoAck ⟨[]⟩ samplePingMsg 4000 2).2.1.pending = [] ∧
      (sendCommandNoAck ⟨[]⟩ samplePingMsg 4000 2).2.2 =
        (List.replicate 3 [TransportEv.send samplePingMsg, TransportEv.timerWait 4000]).flatten
          ++ [TransportEv.reject "No ACK received from agent."] ∧
      countSends (sendCommandNoAck ⟨[]⟩ samplePingMsg 4000 2).2.2 = 3 ∧
      totalWaitMs (sendCommandNoAck ⟨[]⟩ samplePingMsg 4000 2).2.2 = 3 * 4000) :=
  ⟨rfl, rfl, sendCommand_noAck_spec ⟨[]⟩ samplePingMsg 4000 2 rfl rfl⟩

/-- A transport state with a command already in flight. -/
def inFlightState : TransportState :=
  ⟨[(.strV "r0", ⟨2, .objV [("type", .strV "CONTROL_STOP_RUN"),
      ("payload", .objV [("requestId", .strV "r0"), ("runId", .strV "run-1")])], 4000⟩)]⟩

/-- A command message whose payload is missing `requestId`. -/
def noRequestIdMsg : JSValue :=
  .objV [("type", .strV "CONTROL_STOP_RUN"), ("payload", .objV [("runId", .strV "run-1")])]

/-- C2 counterexample: with a command already pending, a `sendCommand` whose
message carries no `requestId` rejects with the missing-requestId error, not
with the conflict error — the precondition check runs before the
single-flight check — so the claim does not hold for every call. -/
theorem sendCommand_pending_not_always_conflict :
    sendCommand inFlightState noRequestIdMsg 4000 2 =
      (.rejected "Command messages must include a requestId.", inFlightState, []) ∧
    ("Command messages must include a requestId." ≠
      "Another command is already in flight.") :=
  ⟨rfl, by decide⟩

/-- C2 as amended: with a command already pending (any request id), a call
to `sendCommand` whose message carries a truthy `requestId` rejects
immediately with the conflict error, broadcasts nothing, queues nothing and
leaves the transport state — including the in-flight pending entry —
unchanged; a call whose message lacks a truthy `requestId` also rejects
immediately with no broadcast and no state change, but with the
missing-requestId error. -/
theorem sendCommand_conflict (st : TransportState) (message : JSValue)
    (timeoutMs retries : Nat) (hpending : st.pending ≠ []) :
    (jsFalsy (extractRequestId message) = false →
      sendCommand st message timeoutMs retries =
        (.rejected "Another command is already in flight.", st, [])) ∧
    (jsFalsy (extractRequestId message) = true →
      sendCommand st message timeoutMs retries =
        (.rejected "Command messages must include a requestId.", st, [])) := by
  have hlen : st.pending.length ≥ 1 := by
    cases hl : st.pending with
    | nil => exact absurd hl hpending
    | cons a l => simp
  constructor
  · intro hreq
    rw [sendCommand]
    simp [hreq, hlen]
  · intro hreq
    rw [sendCommand]
    simp [hreq]

theorem sendCommand_conflict_witness :
    inFlightState.pending ≠ [] ∧
    jsFalsy (extractRequestId samplePingMsg) = false ∧
    sendCommand inFlightState samplePingMsg 4000 2 =
      (.rejected "Another command is already in flight.", inFlightState, []) :=
  ⟨List.cons_ne_nil _ _, rfl,
    (sendCommand_conflict inFlightState samplePingMsg 4000 2 (List.cons_ne_nil _ _)).1 rfl⟩

/-! ## Run Orchestrator (src/userscript/agent.user.js)

The agent is single-threaded and cooperative: control messages are handled
only while the run is suspended at an await.  The model threads the shared
`storageState` flags together with a schedule `CmdSched`, the stream of
control-command batches delivered at the successive suspension points of the
run (one batch is consumed per sleep).  Once the schedule is exhausted no
further command can ever arrive, so a wait loop whose condition is still
unsatisfied at that point spins forever; this is reported as a stuck
outcome with the (finite prefix of the) emitted trace.

The Action Executor (`executeStep` with its `withTimeout` race, lines
76-106 and 867-941) is the external collaborator of the spec; it is
abstracted by a `StepOracle` giving the outcome of each attempt of each
step of each row.  Console-only diagnostics (`log`) are not part of the
broadcast event trace. -/

/-- The run-control portion of the shared `storageState` (lines 28-35 and
the `stepSignal` slot written by `CONTROL_STEP_NEXT`). -/
structure AgentFlags where
  paused : Bool
  stopped : Bool
  killSwitchEnabled : Bool
  stepSignal : Option (String × Nat × Nat)
deriving DecidableEq, Repr

/-- The control commands that mutate run-control state in `handleMessage`
(lines 1002-1029). -/
inductive ControlCmd where
  | pauseRun
  | resumeRun
  | stopRun
  | killSwitch (enabled : Bool)
  | stepNext (runId : String) (rowIndex stepIndex : Nat)
deriving DecidableEq, Repr

/-- `handleMessage` (lines 1002-1029) restricted to its effect on the shared
run-control state.  The acknowledgment broadcasts it also performs do not
touch this state and are omitted from the model. -/
def handleMessage (f : AgentFlags) : ControlCmd → AgentFlags
  | .pauseRun => { f with paused := true }
  | .resumeRun => { f with paused := false }
  | .stopRun => { f with stopped := true }
  | .killSwitch enabled =>
    if enabled then { f with killSwitchEnabled := true, stopped := true, paused := false }
    else { f with killSwitchEnabled := false }
  | .stepNext runId rowIndex stepIndex =>
    { f with stepSignal := some (runId, rowIndex, stepIndex) }

/-- The schedule of incoming control commands: the n-th entry is the batch
handled while the run is suspended at its n-th suspension point. -/
abbrev CmdSched := List (List ControlCmd)

def applyBatch (f : AgentFlags) (batch : List ControlCmd) : AgentFlags :=
  batch.foldl handleMessage f

/-- Consume one suspension point: handle the next scheduled batch, if any. -/
def tickFlags : AgentFlags → CmdSched → AgentFlags × CmdSched
  | f, [] => (f, [])
  | f, batch :: rest => (applyBatch f batch, rest)

/-- The broadcast events and sleeps of a run, in order of occurrence. -/
inductive AgentEv where
  | statusEv (runId status : String) (currentRowIndex : Int)
      (successCount failureCount : Nat) (message : String)
  | logEv (runId : String) (rowIndex stepIndex : Nat) (level message : String)
  | rowResultEv (runId : String) (rowIndex : Nat) (status : String) (error : Option String)
  | sleepEv (ms : Nat)
  | interStepDelay (delayMinMs delayMaxMs : Nat)
deriving DecidableEq, Repr

/-- The local `state` object of `runWorkflow` (lines 778-782). -/
structure RunProgress where
  currentRowIndex : Int
  successCount : Nat
  failureCount : Nat
deriving DecidableEq, Repr

/-- The run settings consumed by the agent (shared schema module plus the
`dryRun` and `stepThrough` flags of the userscript defaults). -/
structure RunSettings where
  headless : Bool
  slowMoMs : Nat
  timeoutMs : Nat
  delayMinMs : Nat
  delayMaxMs : Nat
  concurrency : Nat
  bestEffort : Bool
  dryRun : Bool
  stepThrough : Bool
deriving DecidableEq, Repr

/-- A workflow step as the agent sees it. -/
structure WorkflowStep where
  id : String
  type : String
  selector : Option String
  value : Option String
  timeoutMs : Option Nat
  retries : Option Nat
deriving DecidableEq, Repr

/-- The abstracted Action Executor: `attemptError rowIndex stepIndex attempt`
is `none` when that attempt of `executeStep` (raced against its timeout)
succeeds, and the failure message otherwise. -/
structure StepOracle where
  attemptError : Nat → Nat → Nat → Option String

/-- `sendStatus` (lines 711-723): an `AGENT_STATUS` event built from the
local run state. -/
def sendStatus (runId status : String) (progress : RunProgress) (message : String) : AgentEv :=
  .statusEv runId status progress.currentRowIndex progress.successCount
    progress.failureCount message

/-- The exponential backoff of `retryWithBackoff` (line 100):
`min(500 * 2 ** attempt, MAX_BACKOFF_MS)` with `MAX_BACKOFF_MS = 8000`. -/
def backoffMs (attempt : Nat) : Nat := min (500 * 2 ^ attempt) 8000

/-- `retryWithBackoff` (lines 91-106) applied to the step closure of the
run (lines 819-826): attempt the step; on success broadcast the
step-completed info log (part of the closure); on failure with attempts
remaining, sleep the backoff (handling any commands delivered meanwhile)
and retry; on failure with no attempt remaining, propagate the error.
`remaining` counts down from `retries`, so the current attempt number is
`retries - remaining`. -/
def retryLoop (oracle : StepOracle) (runId stepType : String)
    (rowIndex stepIndex retries : Nat) :
    Nat → AgentFlags → CmdSched → Option String × AgentFlags × CmdSched × List AgentEv
  | remaining, flags, sched =>
    match oracle.attemptError rowIndex stepIndex (retries - remaining) with
    | none =>
      (none, flags, sched,
       [.logEv runId rowIndex stepIndex "info" ("Step " ++ stepType ++ " completed")])
    | some err =>
      match remaining with
      | 0 => (some err, flags, sched, [])
      | r + 1 =>
        let t := tickFlags flags sched
        match retryLoop oracle runId stepType rowIndex stepIndex retries r t.1 t.2 with
        | (res, flags3, sched3, evs) =>
          (res, flags3, sched3, .sleepEv (backoffMs (retries - (r + 1))) :: evs)

/-- `retryWithBackoff` entry point: start at attempt `0` with all `retries`
remaining. -/
def retryWithBackoff (oracle : StepOracle) (runId stepType : String)
    (rowIndex stepIndex retries : Nat) (flags : AgentFlags) (sched : CmdSched) :
    Option String × AgentFlags × CmdSched × List AgentEv :=
  retryLoop oracle runId stepType rowIndex stepIndex retries retries flags sched

/-- `waitForStepSignal` (lines 943-957): poll until the shared step signal
names exactly this `(runId, rowIndex, stepIndex)`, then clear it.  Each poll
sleeps 200ms, during which one scheduled batch is handled.  When the
schedule is exhausted while the signal still does not match, no future
command can release the wait: the final component is `false` and the run is
stuck. -/
def waitForStepSignal (runId : String) (rowIndex stepIndex : Nat) :
    AgentFlags → CmdSched → AgentFlags × CmdSched × List AgentEv × Bool
  | flags, sched =>
    if flags.stepSignal = some (runId, rowIndex, stepIndex) then
      ({ flags with stepSignal := none }, sched, [], true)
    else
      match sched with
      | [] => (flags, [], [.sleepEv 200], false)
      | batch :: rest =>
        match waitForStepSignal runId rowIndex stepIndex (applyBatch flags batch) rest with
        | (flags2, sched2, evs, ok) => (flags2, sched2, .sleepEv 200 :: evs, ok)

/-- `applyDelay` (lines 704-709) as invoked between steps (line 836): sleep
a random time drawn from `[delayMinMs, delayMaxMs)`.  The random draw is
abstracted; the invocation is recorded as an `interStepDelay` event and one
scheduled batch is handled during the sleep. -/
def applyDelay (delayMinMs delayMaxMs : Nat) (flags : AgentFlags) (sched : CmdSched) :
    AgentFlags × CmdSched × List AgentEv :=
  let t := tickFlags flags sched
  (t.1, t.2, [.interStepDelay delayMinMs delayMaxMs])

/-- The step loop of `runWorkflow` (lines 811-837).  Outcome `none` means
the run is stuck forever in the step-through wait; `some (rowFailed,
rowErrorMessage)` is the state of the two row-level variables after the
loop.  On a failed step the error log is emitted; under best-effort the
loop records the error and continues, otherwise it breaks out of the loop
immediately — before the inter-step delay. -/
def stepLoop (oracle : StepOracle) (runId : String) (settings : RunSettings)
    (rowIndex : Nat) :
    List WorkflowStep → Nat → Bool → String → AgentFlags → CmdSched →
    AgentFlags × CmdSched × List AgentEv × Option (Bool × String)
  | [], _, rowFailed, rowError, flags, sched => (flags, sched, [], some (rowFailed, rowError))
  | step :: rest, stepIndex, rowFailed, rowError, flags, sched =>
    match
      (if settings.stepThrough then waitForStepSignal runId rowIndex stepIndex flags sched
       else (flags, sched, [], true)) with
    | (flags1, sched1, gateEvs, acquired) =>
      if acquired = false then (flags1, sched1, gateEvs, none)
      else
        let retries := step.retries.getD 0
        match retryLoop oracle runId step.type rowIndex stepIndex retries retries flags1 sched1 with
        | (none, flags2, sched2, tryEvs) =>
          match applyDelay settings.delayMinMs settings.delayMaxMs flags2 sched2 with
          | (flags3, sched3, delayEvs) =>
            match stepLoop oracle runId settings rowIndex rest (stepIndex + 1)
                rowFailed rowError flags3 sched3 with
            | (flags4, sched4, restEvs, out) =>
              (flags4, sched4, gateEvs ++ tryEvs ++ delayEvs ++ restEvs, out)
        | (some err, flags2, sched2, tryEvs) =>
          if settings.bestEffort then
            match applyDelay settings.delayMinMs settings.delayMaxMs flags2 sched2 with
            | (flags3, sched3, delayEvs) =>
              match stepLoop oracle runId settings rowIndex rest (stepIndex + 1)
                  true err flags3 sched3 with
              | (flags4, sched4, restEvs, out) =>
                (flags4, sched4,
                 gateEvs ++ tryEvs ++ AgentEv.logEv runId rowIndex stepIndex "error" err ::
                   delayEvs ++ restEvs,
                 out)
          else
            (flags2, sched2,
             gateEvs ++ tryEvs ++ [AgentEv.logEv runId rowIndex stepIndex "error" err],
             some (true, err))

/-- The pause wait of the row loop (lines 796-799):
`while (paused) { send paused status; sleep 500ms }`.  The loop condition
reads only the `paused` flag.  One scheduled batch is handled per sleep;
when the schedule runs out while `paused` is still set, nothing can ever
clear the flag and the run is stuck (final component `false`). -/
def pauseWait (runId : String) (progress : RunProgress) :
    AgentFlags → CmdSched → AgentFlags × CmdSched × List AgentEv × Bool
  | flags, sched =>
    if flags.paused then
      match sched with
      | [] =>
        (flags, [],
         [sendStatus runId "paused" progress "Run paused", .sleepEv 500], false)
      | batch :: rest =>
        match pauseWait runId progress (applyBatch flags batch) rest with
        | (flags2, sched2, evs2, ok) =>
          (flags2, sched2,
           sendStatus runId "paused" progress "Run paused" :: AgentEv.sleepEv 500 :: evs2, ok)
    else (flags, sched, [], true)

/-- How a run invocation ended. -/
inductive RunOutcome where
  | blocked
  | completed
  | stoppedEarly
  | erroredEarly
  | stuck
deriving DecidableEq, Repr

/-- The row loop of `runWorkflow` (lines 788-860), iterating `rowIndex` from
`rowsLen - remaining` up to `rowsLen - 1`.  Per iteration: a kill-switch
forces the stopped flag; a pending stop emits the stopped status and
returns; the pause wait runs; a kill-switch observed after the pause emits
the stopped status and returns; then the step loop runs, exactly one row
result is emitted, the matching counter is incremented, and a failed row
under `bestEffort = false` emits the error status and returns. -/
def rowLoop (oracle : StepOracle) (runId : String) (settings : RunSettings)
    (steps : List WorkflowStep) (rowsLen : Nat) :
    Nat → RunProgress → AgentFlags → CmdSched →
    RunProgress × AgentFlags × CmdSched × List AgentEv × RunOutcome
  | 0, progress, flags, sched => (progress, flags, sched, [], .completed)
  | remaining + 1, progress, flags, sched =>
    let rowIndex := rowsLen - (remaining + 1)
    let flags0 := if flags.killSwitchEnabled then { flags with stopped := true } else flags
    if flags0.stopped then
      (progress, flags0, sched, [sendStatus runId "stopped" progress "Run stopped"], .stoppedEarly)
    else
      match pauseWait runId progress flags0 sched with
      | (flags1, sched1, pauseEvs, exited) =>
        if exited = false then (progress, flags1, sched1, pauseEvs, .stuck)
        else if flags1.killSwitchEnabled then
          (progress, { flags1 with stopped := true }, sched1,
           pauseEvs ++ [sendStatus runId "stopped" progress "Kill switch enabled"], .stoppedEarly)
        else
          let progress1 : RunProgress :=
            { progress with currentRowIndex := (rowIndex : Int) }
          let startEv := sendStatus runId "running" progress1 "Processing row"
          match stepLoop oracle runId settings rowIndex steps 0 false "" flags1 sched1 with
          | (flags2, sched2, stepEvs, none) =>
            (progress1, flags2, sched2, pauseEvs ++ startEv :: stepEvs, .stuck)
          | (flags2, sched2, stepEvs, some (rowFailed, rowError)) =>
            if rowFailed then
              let progress2 := { progress1 with failureCount := progress1.failureCount + 1 }
              let rrEv := AgentEv.rowResultEv runId rowIndex "failed"
                (some (if rowError = "" then "Row failed during execution" else rowError))
              if settings.bestEffort = false then
                (progress2, flags2, sched2,
                 pauseEvs ++ startEv :: stepEvs ++
                   [rrEv, sendStatus runId "error" progress2 "Row failed"],
                 .erroredEarly)
              else
                match rowLoop oracle runId settings steps rowsLen remaining
                    progress2 flags2 sched2 with
                | (progress3, flags3, sched3, restEvs, out) =>
                  (progress3, flags3, sched3,
                   pauseEvs ++ startEv :: stepEvs ++ rrEv :: restEvs, out)
            else
              let progress2 := { progress1 with successCount := progress1.successCount + 1 }
              let rrEv := AgentEv.rowResultEv runId rowIndex "success" none
              match rowLoop oracle runId settings steps rowsLen remaining
                  progress2 flags2 sched2 with
              | (progress3, flags3, sched3, restEvs, out) =>
                (progress3, flags3, sched3,
                 pauseEvs ++ startEv :: stepEvs ++ rrEv :: restEvs, out)

/-- `runWorkflow` (lines 765-865).  When the kill switch is enabled at
entry, the run is blocked before the row loop; the blocked status event
reads `storageState`, whose row index at that moment is `storageRowIndex`
and which carries no counters (modelled as zero).  Otherwise the paused and
stopped flags are reset, the transient counters are reset, the running
status is emitted, and the row loop processes rows from `resumeFrom`;
after a completed loop the complete status is emitted. -/
def runWorkflow (oracle : StepOracle) (runId : String) (steps : List WorkflowStep)
    (rowsLen : Nat) (settings : RunSettings) (resumeFrom : Nat)
    (initFlags : AgentFlags) (storageRowIndex : Int) (sched : CmdSched) :
    RunProgress × AgentFlags × CmdSched × List AgentEv × RunOutcome :=
  if initFlags.killSwitchEnabled then
    (⟨storageRowIndex, 0, 0⟩, initFlags, sched,
     [.statusEv runId "stopped" storageRowIndex 0 0 "Kill switch enabled",
      .logEv runId 0 0 "error" "Run blocked by kill switch"],
     .blocked)
  else
    let flags : AgentFlags := { initFlags with paused := false, stopped := false }
    let progress : RunProgress := ⟨(resumeFrom : Int), 0, 0⟩
    let startEv := sendStatus runId "running" progress "Run started"
    match rowLoop oracle runId settings steps rowsLen (rowsLen - resumeFrom)
        progress flags sched with
    | (progress2, flags2, sched2, evs, .completed) =>
      (progress2, flags2, sched2,
       startEv :: evs ++ [sendStatus runId "complete" progress2 "Run complete"], .completed)
    | (progress2, flags2, sched2, evs, out) =>
      (progress2, flags2, sched2, startEv :: evs, out)

/-- The row results of a trace, as `(rowIndex, status)` pairs in emission
order. -/
def rowResultRecords : List AgentEv → List (Nat × String)
  | [] => []
  | .rowResultEv _ rowIndex status _ :: rest => (rowIndex, status) :: rowResultRecords rest
  | _ :: rest => rowResultRecords rest

/-- Number of `applyDelay` invocations recorded in a trace. -/
def countInterStepDelays : List AgentEv → Nat
  | [] => 0
  | .interStepDelay _ _ :: rest => countInterStepDelays rest + 1
  | _ :: rest => countInterStepDelays rest

/-- Number of log events in a trace (inside a step loop: exactly one per
executed step iteration — the info log on success or the error log on
failure). -/
def countLogs : List AgentEv → Nat
  | [] => 0
  | .logEv _ _ _ _ _ :: rest => countLogs rest + 1
  | _ :: rest => countLogs rest

/-- Number of `stopped` status events in a trace. -/
def countStoppedStatus : List AgentEv → Nat
  | [] => 0
  | .statusEv _ "stopped" _ _ _ _ :: rest => countStoppedStatus rest + 1
  | _ :: rest => countStoppedStatus rest

/-! ### Claims about the Run Orchestrator -/

/-- An Action Executor whose every attempt succeeds. -/
def okOracle : StepOracle := ⟨fun _ _ _ => none⟩

/-- An Action Executor whose every attempt fails. -/
def failOracle : StepOracle := ⟨fun _ _ _ => some "boom"⟩

/-- The default run settings of the controller (`createDefaultSettings`). -/
def baseSettings : RunSettings :=
  ⟨false, 0, 15000, 300, 900, 1, false, false, false⟩

/-- A single-step workflow with no per-step retries. -/
def oneStep : WorkflowStep := ⟨"s1", "click", some "body", none, none, some 0⟩

/-- Run-control state with nothing set. -/
def noFlags : AgentFlags := ⟨false, false, false, none⟩

/-- C3 counterexample: in a two-row run, a pause delivered during the first
inter-step delay followed by a stop delivered during the first pause poll
(and no later resume or kill switch) leaves the run spinning in the pause
wait forever: the outcome is stuck, no stopped status is ever emitted, and
the row loop never terminates, although the stop request was received
(final flags show `stopped = true` with `paused` still set). -/
theorem pausedThenStopped_never_halts :
    (runWorkflow okOracle "r" [oneStep] 2 baseSettings 0 noFlags (-1)
        [[ControlCmd.pauseRun], [ControlCmd.stopRun]]).2.2.2.2 = RunOutcome.stuck ∧
    countStoppedStatus (runWorkflow okOracle "r" [oneStep] 2 baseSettings 0 noFlags (-1)
        [[ControlCmd.pauseRun], [ControlCmd.stopRun]]).2.2.2.1 = 0 ∧
    (runWorkflow okOracle "r" [oneStep] 2 baseSettings 0 noFlags (-1)
        [[ControlCmd.pauseRun], [ControlCmd.stopRun]]).2.1.stopped = true ∧
    (runWorkflow okOracle "r" [oneStep] 2 baseSettings 0 noFlags (-1)
        [[ControlCmd.pauseRun], [ControlCmd.stopRun]]).2.1.paused = true := by
  decide

/-- Commands whose handling leaves a set `paused` flag set: everything
except `resume` and `kill-switch enable`. -/
def keepsPaused : ControlCmd → Bool
  | .resumeRun => false
  | .killSwitch true => false
  | _ => true

theorem applyBatch_keepsPaused (flags : AgentFlags) (batch : List ControlCmd)
    (hp : flags.paused = true) (hk : ∀ c ∈ batch, keepsPaused c = true) :
    (applyBatch flags batch).paused = true := by
  induction batch generalizing flags with
  | nil => exact hp
  | cons c cs ih =>
    have hc := hk c (List.mem_cons_self c cs)
    refine ih (handleMessage flags c) ?_ (fun d hd => hk d (List.mem_cons_of_mem c hd))
    cases c with
    | pauseRun => simp [handleMessage]
    | resumeRun => simp [keepsPaused] at hc
    | stopRun => simpa [handleMessage] using hp
    | killSwitch enabled =>
      cases enabled with
      | true => simp [keepsPaused] at hc
      | false => simpa [handleMessage] using hp
    | stepNext runId rowIndex stepIndex => simpa [handleMessage] using hp

theorem pauseWait_stuck (runId : String) (progress : RunProgress)
    (flags : AgentFlags) (sched : CmdSched)
    (hp : flags.paused = true)
    (hk : ∀ batch ∈ sched, ∀ c ∈ batch, keepsPaused c = true) :
    (pauseWait runId progress flags sched).2.2.2 = false ∧
    countStoppedStatus (pauseWait runId progress flags sched).2.2.1 = 0 := by
  induction sched generalizing flags with
  | nil =>
    rw [pauseWait]
    simp [hp, countStoppedStatus]
  | cons batch rest ih =>
    rw [pauseWait]
    have hp2 : (applyBatch flags batch).paused = true :=
      applyBatch_keepsPaused flags batch hp (hk batch (List.mem_cons_self batch rest))
    have ih2 := ih (applyBatch flags batch) hp2
      (fun b hb c hc => hk b (List.mem_cons_of_mem batch hb) c hc)
    simp only [hp, if_true]
    match hrec : pauseWait runId progress (applyBatch flags batch) rest with
    | (flags2, sched2, evs2, ok) =>
      rw [hrec] at ih2
      simpa [countStoppedStatus, sendStatus] using ih2

theorem rowLoop_stopped_halts (oracle : StepOracle) (runId : String)
    (settings : RunSettings) (steps : List WorkflowStep) (rowsLen remaining : Nat)
    (progress : RunProgress) (flags : AgentFlags) (sched : CmdSched)
    (h : flags.stopped = true) :
    (rowLoop oracle runId settings steps rowsLen (remaining + 1) progress flags sched).2.2.2.2 =
      .stoppedEarly ∧
    (rowLoop oracle runId settings steps rowsLen (remaining + 1) progress flags sched).2.2.2.1 =
      [sendStatus runId "stopped" progress "Run stopped"] := by
  rw [rowLoop]
  by_cases hk : flags.killSwitchEnabled <;> simp [hk, h]

theorem pauseWait_killSwitch (runId : String) (progress : RunProgress)
    (flags : AgentFlags) (rest : CmdSched) (hp : flags.paused = true) :
    pauseWait runId progress flags ([ControlCmd.killSwitch true] :: rest) =
      ({ flags with killSwitchEnabled := true, stopped := true, paused := false }, rest,
       [sendStatus runId "paused" progress "Run paused", .sleepEv 500], true) := by
  rw [pauseWait.eq_def]
  simp only [hp, if_true]
  rw [pauseWait.eq_def]
  simp [applyBatch, handleMessage]

/-- C3 as amended: (1) a stop request already received when a row boundary
check runs halts the run there — the stopped status is emitted and the row
loop terminates — whatever the paused flag holds at that boundary, since the
boundary checks the stopped flag before entering the pause wait; (2) a
kill-switch enable received while the run sits in the pause wait also halts
the run at that boundary, because enabling the kill switch clears the paused
flag, releasing the pause wait, and the kill switch is re-checked right
after it; (3) but a plain stop received while the run is paused does not
halt it: the pause wait loop waits only on the paused flag, so as long as no
resume or kill-switch enable ever arrives the run spins in the pause wait
forever and no stopped status is ever emitted. -/
theorem stop_killSwitch_boundary_halting :
    (∀ (oracle : StepOracle) (runId : String) (settings : RunSettings)
       (steps : List WorkflowStep) (rowsLen remaining : Nat) (progress : RunProgress)
       (flags : AgentFlags) (sched : CmdSched), flags.stopped = true →
       (rowLoop oracle runId settings steps rowsLen (remaining + 1)
           progress flags sched).2.2.2.2 = .stoppedEarly ∧
       (rowLoop oracle runId settings steps rowsLen (remaining + 1)
           progress flags sched).2.2.2.1 =
         [sendStatus runId "stopped" progress "Run stopped"]) ∧
    (∀ (oracle : StepOracle) (runId : String) (settings : RunSettings)
       (steps : List WorkflowStep) (rowsLen remaining : Nat) (progress : RunProgress)
       (flags : AgentFlags) (rest : CmdSched),
       flags.paused = true → flags.stopped = false → flags.killSwitchEnabled = false →
       (rowLoop oracle runId settings steps rowsLen (remaining + 1)
           progress flags ([ControlCmd.killSwitch true] :: rest)).2.2.2.2 = .stoppedEarly ∧
       (rowLoop oracle runId settings steps rowsLen (remaining + 1)
           progress flags ([ControlCmd.killSwitch true] :: rest)).2.2.2.1 =
         [sendStatus runId "paused" progress "Run paused", .sleepEv 500,
          sendStatus runId "stopped" progress "Kill switch enabled"]) ∧
    (∀ (oracle : StepOracle) (runId : String) (settings : RunSettings)
       (steps : List WorkflowStep) (rowsLen remaining : Nat) (progress : RunProgress)
       (flags : AgentFlags) (sched : CmdSched),
       flags.paused = true → flags.stopped = false → flags.killSwitchEnabled = false →
       (∀ batch ∈ sched, ∀ c ∈ batch, keepsPaused c = true) →
       (rowLoop oracle runId settings steps rowsLen (remaining + 1)
           progress flags sched).2.2.2.2 = .stuck ∧
       countStoppedStatus (rowLoop oracle runId settings steps rowsLen (remaining + 1)
           progress flags sched).2.2.2.1 = 0) := by
  refine ⟨rowLoop_stopped_halts, ?_, ?_⟩
  · intro oracle runId settings steps rowsLen remaining progress flags rest hp hs hk
    rw [rowLoop]
    simp only [hk, Bool.false_eq_true, if_false]
    rw [pauseWait_killSwitch runId progress flags rest hp]
    simp [hs]
  · intro oracle runId settings steps rowsLen remaining progress flags sched hp hs hk hkeep
    have hpw := pauseWait_stuck runId progress flags sched hp hkeep
    rw [rowLoop]
    simp only [hk, Bool.false_eq_true, if_false]
    match hrec : pauseWait runId progress flags sched with
    | (flags1, sched1, evs, ok) =>
      rw [hrec] at hpw
      simp only at hpw
      simp [hs, hrec, hpw.1, hpw.2]

theorem stop_killSwitch_boundary_halting_witness :
    ((AgentFlags.mk true true false none).stopped = true ∧
      (rowLoop okOracle "r" baseSettings [oneStep] 2 2 ⟨0, 0, 0⟩
          ⟨true, true, false, none⟩ []).2.2.2.2 = .stoppedEarly ∧
      (rowLoop okOracle "r" baseSettings [oneStep] 2 2 ⟨0, 0, 0⟩
          ⟨true, true, false, none⟩ []).2.2.2.1 =
        [sendStatus "r" "stopped" ⟨0, 0, 0⟩ "Run stopped"]) ∧
    ((AgentFlags.mk true false false none).paused = true ∧
      (rowLoop okOracle "r" baseSettings [oneStep] 2 2 ⟨0, 0, 0⟩
          ⟨true, false, false, none⟩ [[ControlCmd.killSwitch true]]).2.2.2.2 = .stoppedEarly ∧
      (rowLoop okOracle "r" baseSettings [oneStep] 2 2 ⟨0, 0, 0⟩
          ⟨true, false, false, none⟩ [[ControlCmd.killSwitch true]]).2.2.2.1 =
        [sendStatus "r" "paused" ⟨0, 0, 0⟩ "Run paused", .sleepEv 500,
         sendStatus "r" "stopped" ⟨0, 0, 0⟩ "Kill switch enabled"]) ∧
    ((∀ batch ∈ ([[ControlCmd.stopRun]] : CmdSched), ∀ c ∈ batch, keepsPaused c = true) ∧
      (rowLoop okOracle "r" baseSettings [oneStep] 2 2 ⟨0, 0, 0⟩
          ⟨true, false, false, none⟩ [[ControlCmd.stopRun]]).2.2.2.2 = .stuck ∧
      countStoppedStatus (rowLoop okOracle "r" baseSettings [oneStep] 2 2 ⟨0, 0, 0⟩
          ⟨true, false, false, none⟩ [[ControlCmd.stopRun]]).2.2.2.1 = 0) :=
  ⟨⟨rfl, stop_killSwitch_boundary_halting.1 okOracle "r" baseSettings [oneStep] 2 1
      ⟨0, 0, 0⟩ ⟨true, true, false, none⟩ [] rfl⟩,
   ⟨rfl, stop_killSwitch_boundary_halting.2.1 okOracle "r" baseSettings [oneStep] 2 1
      ⟨0, 0, 0⟩ ⟨true, false, false, none⟩ [] rfl rfl rfl⟩,
   ⟨by decide, stop_killSwitch_boundary_halting.2.2 okOracle "r" baseSettings [oneStep] 2 1
      ⟨0, 0, 0⟩ ⟨true, false, false, none⟩ [[ControlCmd.stopRun]] rfl rfl rfl (by decide)⟩⟩

/-- C4 counterexample: in a run whose single step fails (all attempts) with
`bestEffort = false`, the step loop leaves the row from inside the catch
block, before `applyDelay` is reached: the trace records the step attempt
(one error log) but zero inter-step delay invocations, whereas the claim
requires the delay to run after the failing attempt before the row is
aborted. -/
theorem failing_step_abort_skips_delay :
    (runWorkflow failOracle "r" [oneStep] 1 baseSettings 0 noFlags (-1) []).2.2.2.1 =
      [AgentEv.statusEv "r" "running" 0 0 0 "Run started",
       AgentEv.statusEv "r" "running" 0 0 0 "Processing row",
       AgentEv.logEv "r" 0 0 "error" "boom",
       AgentEv.rowResultEv "r" 0 "failed" (some "boom"),
       AgentEv.statusEv "r" "error" 0 0 1 "Row failed"] ∧
    countLogs (runWorkflow failOracle "r" [oneStep] 1 baseSettings 0 noFlags (-1) []).2.2.2.1 = 1 ∧
    countInterStepDelays
      (runWorkflow failOracle "r" [oneStep] 1 baseSettings 0 noFlags (-1) []).2.2.2.1 = 0 := by
  decide

theorem retryLoop_no_delays (oracle : StepOracle) (runId stepType : String)
    (rowIndex stepIndex retries : Nat) :
    ∀ (remaining : Nat) (flags : AgentFlags) (sched : CmdSched),
    countInterStepDelays (retryLoop oracle runId stepType rowIndex stepIndex retries
      remaining flags sched).2.2.2 = 0 := by
  intro remaining
  induction remaining with
  | zero =>
    intro flags sched
    rw [retryLoop]
    cases oracle.attemptError rowIndex stepIndex (retries - 0) <;>
      simp [countInterStepDelays]
  | succ r ih =>
    intro flags sched
    rw [retryLoop]
    cases oracle.attemptError rowIndex stepIndex (retries - (r + 1)) with
    | none => simp [countInterStepDelays]
    | some err =>
      match hrec : retryLoop oracle runId stepType rowIndex stepIndex retries r
          (tickFlags flags sched).1 (tickFlags flags sched).2 with
      | (res, flags3, sched3, evs) =>
        have h2 := ih (tickFlags flags sched).1 (tickFlags flags sched).2
        rw [hrec] at h2
        simp only at h2
        simp [hrec, countInterStepDelays, h2]

theorem retryLoop_logs (oracle : StepOracle) (runId stepType : String)
    (rowIndex stepIndex retries : Nat) :
    ∀ (remaining : Nat) (flags : AgentFlags) (sched : CmdSched),
    ((retryLoop oracle runId stepType rowIndex stepIndex retries remaining flags sched).1 = none →
      countLogs (retryLoop oracle runId stepType rowIndex stepIndex retries
        remaining flags sched).2.2.2 = 1) ∧
    (∀ err, (retryLoop oracle runId stepType rowIndex stepIndex retries
        remaining flags sched).1 = some err →
      countLogs (retryLoop oracle runId stepType rowIndex stepIndex retries
        remaining flags sched).2.2.2 = 0) := by
  intro remaining
  induction remaining with
  | zero =>
    intro flags sched
    rw [retryLoop]
    cases oracle.attemptError rowIndex stepIndex (retries - 0) <;>
      simp [countLogs]
  | succ r ih =>
    intro flags sched
    rw [retryLoop]
    cases oracle.attemptError rowIndex stepIndex (retries - (r + 1)) with
    | none => simp [countLogs]
    | some err =>
      match hrec : retryLoop oracle runId stepType rowIndex stepIndex retries r
          (tickFlags flags sched).1 (tickFlags flags sched).2 with
      | (res, flags3, sched3, evs) =>
        have h2 := ih (tickFlags flags sched).1 (tickFlags flags sched).2
        rw [hrec] at h2
        simp only at h2
        simp [hrec, countLogs]
        constructor
        · intro hres
          exact h2.1 hres
        · intro e hres
          exact h2.2 e hres

theorem countLogs_append (a b : List AgentEv) :
    countLogs (a ++ b) = countLogs a + countLogs b := by
  induction a with
  | nil => simp [countLogs]
  | cons ev rest ih => cases ev <;> (simp [countLogs, ih]; try omega)

theorem countInterStepDelays_append (a b : List AgentEv) :
    countInterStepDelays (a ++ b) = countInterStepDelays a + countInterStepDelays b := by
  induction a with
  | nil => simp [countInterStepDelays]
  | cons ev rest ih => cases ev <;> (simp [countInterStepDelays, ih]; try omega)

theorem stepLoop_bestEffort_counts (oracle : StepOracle) (runId : String)
    (settings : RunSettings) (rowIndex : Nat)
    (hst : settings.stepThrough = false) (hbe : settings.bestEffort = true) :
    ∀ (steps : List WorkflowStep) (stepIndex : Nat) (rf : Bool) (re : String)
      (flags : AgentFlags) (sched : CmdSched),
    countLogs (stepLoop oracle runId settings rowIndex steps stepIndex rf re
        flags sched).2.2.1 = steps.length ∧
    countInterStepDelays (stepLoop oracle runId settings rowIndex steps stepIndex rf re
        flags sched).2.2.1 = steps.length ∧
    (∃ b e, (stepLoop oracle runId settings rowIndex steps stepIndex rf re
        flags sched).2.2.2 = some (b, e)) := by
  intro steps
  induction steps with
  | nil =>
    intro stepIndex rf re flags sched
    simp [stepLoop, countLogs, countInterStepDelays]
  | cons step rest ih =>
    intro stepIndex rf re flags sched
    rw [stepLoop]
    simp only [hst, Bool.false_eq_true, if_false]
    match hr : retryLoop oracle runId step.type rowIndex stepIndex (step.retries.getD 0)
        (step.retries.getD 0) flags sched with
    | (res, flags2, sched2, tryEvs) =>
      have hnd := retryLoop_no_delays oracle runId step.type rowIndex stepIndex
        (step.retries.getD 0) (step.retries.getD 0) flags sched
      have hlg := retryLoop_logs oracle runId step.type rowIndex stepIndex
        (step.retries.getD 0) (step.retries.getD 0) flags sched
      rw [hr] at hnd hlg
      simp only at hnd hlg
      cases res with
      | none =>
        match hr2 : stepLoop oracle runId settings rowIndex rest (stepIndex + 1) rf re
            (tickFlags flags2 sched2).1 (tickFlags flags2 sched2).2 with
        | (flags4, sched4, restEvs, out) =>
          have h3 := ih (stepIndex + 1) rf re (tickFlags flags2 sched2).1 (tickFlags flags2 sched2).2
          rw [hr2] at h3
          simp only at h3
          refine ⟨?_, ?_, ?_⟩
          · simp [applyDelay, hr2, countLogs_append, countLogs, hlg.1 rfl, h3.1]
            omega
          · simp [applyDelay, hr2, countInterStepDelays_append, countInterStepDelays, hnd, h3.2.1]
          · simpa [applyDelay, hr2] using h3.2.2
      | some err =>
        simp only [hbe, if_true]
        match hr2 : stepLoop oracle runId settings rowIndex rest (stepIndex + 1) true err
            (tickFlags flags2 sched2).1 (tickFlags flags2 sched2).2 with
        | (flags4, sched4, restEvs, out) =>
          have h3 := ih (stepIndex + 1) true err (tickFlags flags2 sched2).1 (tickFlags flags2 sched2).2
          rw [hr2] at h3
          simp only at h3
          refine ⟨?_, ?_, ?_⟩
          · simp [applyDelay, hr2, countLogs_append, countLogs, hlg.2 err rfl, h3.1]
          · simp [applyDelay, hr2, countInterStepDelays_append, countInterStepDelays, hnd, h3.2.1]
          · simpa [applyDelay, hr2] using h3.2.2

theorem stepLoop_strict_counts (oracle : StepOracle) (runId : String)
    (settings : RunSettings) (rowIndex : Nat)
    (hst : settings.stepThrough = false) (hbe : settings.bestEffort = false) :
    ∀ (steps : List WorkflowStep) (stepIndex : Nat) (re : String)
      (flags : AgentFlags) (sched : CmdSched),
    ∃ b e, (stepLoop oracle runId settings rowIndex steps stepIndex false re
        flags sched).2.2.2 = some (b, e) ∧
      (b = false →
        countLogs (stepLoop oracle runId settings rowIndex steps stepIndex false re
          flags sched).2.2.1 = steps.length ∧
        countInterStepDelays (stepLoop oracle runId settings rowIndex steps stepIndex false re
          flags sched).2.2.1 = steps.length) ∧
      (b = true →
        countInterStepDelays (stepLoop oracle runId settings rowIndex steps stepIndex false re
          flags sched).2.2.1 + 1 =
        countLogs (stepLoop oracle runId settings rowIndex steps stepIndex false re
          flags sched).2.2.1) := by
  intro steps
  induction steps with
  | nil =>
    intro stepIndex re flags sched
    refine ⟨false, re, ?_, ?_, ?_⟩
    · simp [stepLoop]
    · intro h
      simp [stepLoop, countLogs, countInterStepDelays]
    · intro h
      cases h
  | cons step rest ih =>
    intro stepIndex re flags sched
    rw [stepLoop]
    simp only [hst, Bool.false_eq_true, if_false]
    match hr : retryLoop oracle runId step.type rowIndex stepIndex (step.retries.getD 0)
        (step.retries.getD 0) flags sched with
    | (res, flags2, sched2, tryEvs) =>
      have hnd := retryLoop_no_delays oracle runId step.type rowIndex stepIndex
        (step.retries.getD 0) (step.retries.getD 0) flags sched
      have hlg := retryLoop_logs oracle runId step.type rowIndex stepIndex
        (step.retries.getD 0) (step.retries.getD 0) flags sched
      rw [hr] at hnd hlg
      simp only at hnd hlg
      cases res with
      | none =>
        match hr2 : stepLoop oracle runId settings rowIndex rest (stepIndex + 1) false re
            (tickFlags flags2 sched2).1 (tickFlags flags2 sched2).2 with
        | (flags4, sched4, restEvs, out) =>
          obtain ⟨b, e, hout, hfalse, htrue⟩ :=
            ih (stepIndex + 1) re (tickFlags flags2 sched2).1 (tickFlags flags2 sched2).2
          rw [hr2] at hout hfalse htrue
          simp only at hout hfalse htrue
          refine ⟨b, e, ?_, ?_, ?_⟩
          · simp [applyDelay, hr2, hout]
          · intro hb
            obtain ⟨hl, hd⟩ := hfalse hb
            constructor
            · simp [applyDelay, hr2, countLogs_append, countLogs, hlg.1 rfl, hl]
              omega
            · simp [applyDelay, hr2, countInterStepDelays_append, countInterStepDelays, hnd, hd]
          · intro hb
            have h4 := htrue hb
            simp [applyDelay, hr2, countLogs_append, countInterStepDelays_append,
                  countLogs, countInterStepDelays, hlg.1 rfl, hnd]
            omega
      | some err =>
        simp only [hbe, Bool.false_eq_true, if_false]
        refine ⟨true, err, ?_, ?_, ?_⟩
        · simp
        · intro hb
          cases hb
        · intro hb
          simp [countLogs_append, countInterStepDelays_append,
                countLogs, countInterStepDelays, hlg.2 err rfl, hnd]

/-- C4 as amended: with step-through disabled, the inter-step delay runs
after every step attempt that succeeds or that fails under best-effort — a
best-effort step loop always completes with exactly one outcome log and one
delay invocation per step — but when a step fails while `bestEffort` is
false, the loop aborts the row from inside the catch block without running
the delay: an aborted row trace carries exactly one more outcome log than
delay invocations, and a strict row with no failure again has one delay per
step. -/
theorem interStepDelay_after_attempts :
    (∀ (oracle : StepOracle) (runId : String) (settings : RunSettings) (rowIndex : Nat),
      settings.stepThrough = false → settings.bestEffort = true →
      ∀ (steps : List WorkflowStep) (stepIndex : Nat) (rf : Bool) (re : String)
        (flags : AgentFlags) (sched : CmdSched),
      countLogs (stepLoop oracle runId settings rowIndex steps stepIndex rf re
          flags sched).2.2.1 = steps.length ∧
      countInterStepDelays (stepLoop oracle runId settings rowIndex steps stepIndex rf re
          flags sched).2.2.1 = steps.length ∧
      (∃ b e, (stepLoop oracle runId settings rowIndex steps stepIndex rf re
          flags sched).2.2.2 = some (b, e))) ∧
    (∀ (oracle : StepOracle) (runId : String) (settings : RunSettings) (rowIndex : Nat),
      settings.stepThrough = false → settings.bestEffort = false →
      ∀ (steps : List WorkflowStep) (stepIndex : Nat) (re : String)
        (flags : AgentFlags) (sched : CmdSched),
      ∃ b e, (stepLoop oracle runId settings rowIndex steps stepIndex false re
          flags sched).2.2.2 = some (b, e) ∧
        (b = false →
          countLogs (stepLoop oracle runId settings rowIndex steps stepIndex false re
            flags sched).2.2.1 = steps.length ∧
          countInterStepDelays (stepLoop oracle runId settings rowIndex steps stepIndex false re
            flags sched).2.2.1 = steps.length) ∧
        (b = true →
          countInterStepDelays (stepLoop oracle runId settings rowIndex steps stepIndex false re
            flags sched).2.2.1 + 1 =
          countLogs (stepLoop oracle runId settings rowIndex steps stepIndex false re
            flags sched).2.2.1)) :=
  ⟨fun oracle runId settings rowIndex hst hbe =>
      stepLoop_bestEffort_counts oracle runId settings rowIndex hst hbe,
   fun oracle runId settings rowIndex hst hbe =>
      stepLoop_strict_counts oracle runId settings rowIndex hst hbe⟩

/-- Default settings with `bestEffort` enabled. -/
def bestEffortSettings : RunSettings :=
  ⟨false, 0, 15000, 300, 900, 1, true, false, false⟩

theorem interStepDelay_after_attempts_witness :
    bestEffortSettings.stepThrough = false ∧ bestEffortSettings.bestEffort = true ∧
    baseSettings.stepThrough = false ∧ baseSettings.bestEffort = false ∧
    (countLogs (stepLoop failOracle "r" bestEffortSettings 0 [oneStep] 0 false ""
        noFlags []).2.2.1 = 1 ∧
      countInterStepDelays (stepLoop failOracle "r" bestEffortSettings 0 [oneStep] 0 false ""
        noFlags []).2.2.1 = 1 ∧
      (∃ b e, (stepLoop failOracle "r" bestEffortSettings 0 [oneStep] 0 false ""
        noFlags []).2.2.2 = some (b, e))) ∧
    (∃ b e, (stepLoop failOracle "r" baseSettings 0 [oneStep] 0 false ""
        noFlags []).2.2.2 = some (b, e) ∧
      (b = false →
        countLogs (stepLoop failOracle "r" baseSettings 0 [oneStep] 0 false ""
          noFlags []).2.2.1 = 1 ∧
        countInterStepDelays (stepLoop failOracle "r" baseSettings 0 [oneStep] 0 false ""
          noFlags []).2.2.1 = 1) ∧
      (b = true →
        countInterStepDelays (stepLoop failOracle "r" baseSettings 0 [oneStep] 0 false ""
          noFlags []).2.2.1 + 1 =
        countLogs (stepLoop failOracle "r" baseSettings 0 [oneStep] 0 false ""
          noFlags []).2.2.1)) :=
  ⟨rfl, rfl, rfl, rfl,
   interStepDelay_after_attempts.1 failOracle "r" bestEffortSettings 0 rfl rfl
     [oneStep] 0 false "" noFlags [],
   interStepDelay_after_attempts.2 failOracle "r" baseSettings 0 rfl rfl
     [oneStep] 0 "" noFlags []⟩

theorem rowResultRecords_append (a b : List AgentEv) :
    rowResultRecords (a ++ b) = rowResultRecords a ++ rowResultRecords b := by
  induction a with
  | nil => simp [rowResultRecords]
  | cons ev rest ih => cases ev <;> simp [rowResultRecords, ih]

theorem retryLoop_no_rowResults (oracle : StepOracle) (runId stepType : String)
    (rowIndex stepIndex retries : Nat) :
    ∀ (remaining : Nat) (flags : AgentFlags) (sched : CmdSched),
    rowResultRecords (retryLoop oracle runId stepType rowIndex stepIndex retries
      remaining flags sched).2.2.2 = [] := by
  intro remaining
  induction remaining with
  | zero =>
    intro flags sched
    rw [retryLoop]
    cases oracle.attemptError rowIndex stepIndex (retries - 0) <;>
      simp [rowResultRecords]
  | succ r ih =>
    intro flags sched
    rw [retryLoop]
    cases oracle.attemptError rowIndex stepIndex (retries - (r + 1)) with
    | none => simp [rowResultRecords]
    | some err =>
      match hrec : retryLoop oracle runId stepType rowIndex stepIndex retries r
          (tickFlags flags sched).1 (tickFlags flags sched).2 with
      | (res, flags3, sched3, evs) =>
        have h2 := ih (tickFlags flags sched).1 (tickFlags flags sched).2
        rw [hrec] at h2
        simp only at h2
        simp [hrec, rowResultRecords, h2]

theorem waitForStepSignal_no_rowResults (runId : String) (rowIndex stepIndex : Nat) :
    ∀ (sched : CmdSched) (flags : AgentFlags),
    rowResultRecords (waitForStepSignal runId rowIndex stepIndex flags sched).2.2.1 = [] := by
  intro sched
  induction sched with
  | nil =>
    intro flags
    rw [waitForStepSignal]
    by_cases h : flags.stepSignal = some (runId, rowIndex, stepIndex) <;>
      simp [h, rowResultRecords]
  | cons batch rest ih =>
    intro flags
    rw [waitForStepSignal]
    by_cases h : flags.stepSignal = some (runId, rowIndex, stepIndex)
    · simp [h, rowResultRecords]
    · match hrec : waitForStepSignal runId rowIndex stepIndex (applyBatch flags batch) rest with
      | (flags2, sched2, evs, ok) =>
        have h2 := ih (applyBatch flags batch)
        rw [hrec] at h2
        simp only at h2
        simp [h, hrec, rowResultRecords, h2]

theorem stepLoop_no_rowResults (oracle : StepOracle) (runId : String)
    (settings : RunSettings) (rowIndex : Nat) :
    ∀ (steps : List WorkflowStep) (stepIndex : Nat) (rf : Bool) (re : String)
      (flags : AgentFlags) (sched : CmdSched),
    rowResultRecords (stepLoop oracle runId settings rowIndex steps stepIndex rf re
      flags sched).2.2.1 = [] := by
  intro steps
  induction steps with
  | nil =>
    intro stepIndex rf re flags sched
    simp [stepLoop, rowResultRecords]
  | cons step rest ih =>
    intro stepIndex rf re flags sched
    rw [stepLoop]
    match hgate : (if settings.stepThrough then
        waitForStepSignal runId rowIndex stepIndex flags sched
      else (flags, sched, ([] : List AgentEv), true)) with
    | (flags1, sched1, gateEvs, acquired) =>
      have hgateRR : rowResultRecords gateEvs = [] := by
        by_cases hth : settings.stepThrough
        · have := waitForStepSignal_no_rowResults runId rowIndex stepIndex sched flags
          rw [hth] at hgate
          simp only [if_true] at hgate
          rw [hgate] at this
          exact this
        · rw [if_neg hth] at hgate
          cases hgate
          simp [rowResultRecords]
      cases acquired with
      | false => simpa using hgateRR
      | true =>
        simp only [Bool.true_eq_false, if_false]
        match hr : retryLoop oracle runId step.type rowIndex stepIndex (step.retries.getD 0)
            (step.retries.getD 0) flags1 sched1 with
        | (res, flags2, sched2, tryEvs) =>
          have htry := retryLoop_no_rowResults oracle runId step.type rowIndex stepIndex
            (step.retries.getD 0) (step.retries.getD 0) flags1 sched1
          rw [hr] at htry
          simp only at htry
          cases res with
          | none =>
            match hr2 : stepLoop oracle runId settings rowIndex rest (stepIndex + 1) rf re
                (tickFlags flags2 sched2).1 (tickFlags flags2 sched2).2 with
            | (flags4, sched4, restEvs, out) =>
              have h3 := ih (stepIndex + 1) rf re (tickFlags flags2 sched2).1
                (tickFlags flags2 sched2).2
              rw [hr2] at h3
              simp only at h3
              simp [applyDelay, hr2, rowResultRecords_append, rowResultRecords,
                    hgateRR, htry, h3]
          | some err =>
            by_cases hbe : settings.bestEffort
            · simp only [hbe, if_true]
              match hr2 : stepLoop oracle runId settings rowIndex rest (stepIndex + 1) true err
                  (tickFlags flags2 sched2).1 (tickFlags flags2 sched2).2 with
              | (flags4, sched4, restEvs, out) =>
                have h3 := ih (stepIndex + 1) true err (tickFlags flags2 sched2).1
                  (tickFlags flags2 sched2).2
                rw [hr2] at h3
                simp only at h3
                simp [applyDelay, hr2, rowResultRecords_append, rowResultRecords,
                      hgateRR, htry, h3]
            · simp [hbe, rowResultRecords_append, rowResultRecords, hgateRR, htry]

theorem pauseWait_no_rowResults (runId : String) (progress : RunProgress) :
    ∀ (sched : CmdSched) (flags : AgentFlags),
    rowResultRecords (pauseWait runId progress flags sched).2.2.1 = [] := by
  intro sched
  induction sched with
  | nil =>
    intro flags
    rw [pauseWait.eq_def]
    by_cases h : flags.paused = true <;> simp [h, rowResultRecords, sendStatus]
  | cons batch rest ih =>
    intro flags
    rw [pauseWait.eq_def]
    by_cases h : flags.paused = true
    · match hrec : pauseWait runId progress (applyBatch flags batch) rest with
      | (flags2, sched2, evs2, ok) =>
        have h2 := ih (applyBatch flags batch)
        rw [hrec] at h2
        simp only at h2
        simp [h, hrec, rowResultRecords, sendStatus, h2]
    · simp [h, rowResultRecords]

/-- Number of row results with the given status. -/
def countStatus (s : String) (records : List (Nat × String)) : Nat :=
  (records.filter (fun r => r.2 == s)).length

theorem countStatus_partition (records : List (Nat × String))
    (h : ∀ r ∈ records, r.2 = "success" ∨ r.2 = "failed") :
    countStatus "success" records + countStatus "failed" records = records.length := by
  induction records with
  | nil => rfl
  | cons r rest ih =>
    have hr := h r (List.mem_cons_self r rest)
    have ih2 := ih (fun x hx => h x (List.mem_cons_of_mem r hx))
    rcases hr with h1 | h1 <;> simp [countStatus, List.filter, h1] at ih2 ⊢ <;> omega

theorem rowLoop_records (oracle : StepOracle) (runId : String) (settings : RunSettings)
    (steps : List WorkflowStep) (rowsLen : Nat) :
    ∀ (remaining : Nat) (progress : RunProgress) (flags : AgentFlags) (sched : CmdSched),
    remaining ≤ rowsLen →
    ((rowResultRecords (rowLoop oracle runId settings steps rowsLen remaining
        progress flags sched).2.2.2.1).map Prod.fst =
      List.range' (rowsLen - remaining)
        (rowResultRecords (rowLoop oracle runId settings steps rowsLen remaining
          progress flags sched).2.2.2.1).length) ∧
    ((rowLoop oracle runId settings steps rowsLen remaining progress flags sched).1.successCount =
      progress.successCount + countStatus "success"
        (rowResultRecords (rowLoop oracle runId settings steps rowsLen remaining
          progress flags sched).2.2.2.1)) ∧
    ((rowLoop oracle runId settings steps rowsLen remaining progress flags sched).1.failureCount =
      progress.failureCount + countStatus "failed"
        (rowResultRecords (rowLoop oracle runId settings steps rowsLen remaining
          progress flags sched).2.2.2.1)) ∧
    (∀ r ∈ rowResultRecords (rowLoop oracle runId settings steps rowsLen remaining
        progress flags sched).2.2.2.1, r.2 = "success" ∨ r.2 = "failed") := by
  intro remaining
  induction remaining with
  | zero =>
    intro progress flags sched hle
    simp [rowLoop, rowResultRecords, countStatus]
  | succ rem ih =>
    intro progress flags sched hle
    rw [rowLoop]
    by_cases hstop : (if flags.killSwitchEnabled then
        { flags with stopped := true } else flags).stopped = true
    · simp [hstop, rowResultRecords, sendStatus, countStatus]
    · simp only [hstop, Bool.false_eq_true, if_false]
      match hpw : pauseWait runId progress
          (if flags.killSwitchEnabled then { flags with stopped := true } else flags) sched with
      | (flags1, sched1, pauseEvs, exited) =>
        have hpwr := pauseWait_no_rowResults runId progress sched
          (if flags.killSwitchEnabled then { flags with stopped := true } else flags)
        rw [hpw] at hpwr
        simp only at hpwr
        cases exited with
        | false => simp [hpwr, countStatus]
        | true =>
          simp only [Bool.true_eq_false, if_false]
          by_cases hk1 : flags1.killSwitchEnabled = true
          · simp [hk1, rowResultRecords_append, rowResultRecords, sendStatus,
                  hpwr, countStatus]
          · simp only [hk1, Bool.false_eq_true, if_false]
            match hsl : stepLoop oracle runId settings (rowsLen - (rem + 1)) steps 0 false ""
                flags1 sched1 with
            | (flags2, sched2, stepEvs, out) =>
              have hslr := stepLoop_no_rowResults oracle runId settings (rowsLen - (rem + 1))
                steps 0 false "" flags1 sched1
              rw [hsl] at hslr
              simp only at hslr
              cases out with
              | none =>
                simp [hpwr, hslr, rowResultRecords_append, rowResultRecords,
                      sendStatus, countStatus]
              | some rfe =>
                obtain ⟨rowFailed, rowError⟩ := rfe
                cases rowFailed with
                | true =>
                  by_cases hbe : settings.bestEffort = false
                  · simp only [hbe, if_true, Bool.true_eq_false, if_false]
                    refine ⟨?_, ?_, ?_, ?_⟩
                    · simp [hpwr, hslr, rowResultRecords_append, rowResultRecords,
                            sendStatus, List.range'_succ]
                    · simp [hpwr, hslr, rowResultRecords_append, rowResultRecords,
                            sendStatus, countStatus]
                    · simp [hpwr, hslr, rowResultRecords_append, rowResultRecords,
                            sendStatus, countStatus]
                    · intro r hr
                      simp [rowResultRecords_append, sendStatus, rowResultRecords,
                        hpwr, hslr] at hr
                      right
                      rw [hr]
                  · simp only [hbe, if_false, Bool.true_eq_false]
                    match hrl : rowLoop oracle runId settings steps rowsLen rem
                        { progress with
                            currentRowIndex := ((rowsLen - (rem + 1) : Nat) : Int),
                            failureCount := progress.failureCount + 1 }
                        flags2 sched2 with
                    | (progress3, flags3, sched3, restEvs, out2) =>
                      have hIH := ih { progress with
                          currentRowIndex := ((rowsLen - (rem + 1) : Nat) : Int),
                          failureCount := progress.failureCount + 1 }
                        flags2 sched2 (Nat.le_of_succ_le hle)
                      rw [hrl] at hIH
                      simp only at hIH
                      obtain ⟨hIH1, hIH2, hIH3, hIH4⟩ := hIH
                      have heq : rowsLen - (rem + 1) + 1 = rowsLen - rem := by omega
                      refine ⟨?_, ?_, ?_, ?_⟩
                      · simp only [if_true, if_false, Bool.false_eq_true, Bool.true_eq_false,
                          rowResultRecords_append, sendStatus, rowResultRecords,
                          hpwr, hslr, List.nil_append, List.map_cons, List.length_cons]
                        rw [List.range'_succ, heq, ← hIH1]
                      · simp only [if_true, if_false, Bool.false_eq_true, Bool.true_eq_false,
                          rowResultRecords_append, sendStatus, rowResultRecords,
                          hpwr, hslr, List.nil_append]
                        simp [countStatus, List.filter] at hIH2 ⊢
                        omega
                      · simp only [if_true, if_false, Bool.false_eq_true, Bool.true_eq_false,
                          rowResultRecords_append, sendStatus, rowResultRecords,
                          hpwr, hslr, List.nil_append]
                        simp [countStatus, List.filter] at hIH3 ⊢
                        omega
                      · intro r hr
                        simp only [if_true, if_false, Bool.false_eq_true, Bool.true_eq_false,
                          rowResultRecords_append, sendStatus, rowResultRecords,
                          hpwr, hslr, List.nil_append, List.mem_cons] at hr
                        rcases hr with h1 | h1
                        · right
                          rw [h1]
                        · exact hIH4 r h1
                | false =>
                  match hrl : rowLoop oracle runId settings steps rowsLen rem
                      { progress with
                          currentRowIndex := ((rowsLen - (rem + 1) : Nat) : Int),
                          successCount := progress.successCount + 1 }
                      flags2 sched2 with
                  | (progress3, flags3, sched3, restEvs, out2) =>
                    have hIH := ih { progress with
                        currentRowIndex := ((rowsLen - (rem + 1) : Nat) : Int),
                        successCount := progress.successCount + 1 }
                      flags2 sched2 (Nat.le_of_succ_le hle)
                    rw [hrl] at hIH
                    simp only at hIH
                    obtain ⟨hIH1, hIH2, hIH3, hIH4⟩ := hIH
                    have heq : rowsLen - (rem + 1) + 1 = rowsLen - rem := by omega
                    refine ⟨?_, ?_, ?_, ?_⟩
                    · simp only [hrl, if_true, if_false, Bool.false_eq_true, Bool.true_eq_false,
                        rowResultRecords_append, sendStatus, rowResultRecords,
                        hpwr, hslr, List.nil_append, List.map_cons, List.length_cons]
                      rw [List.range'_succ, heq, ← hIH1]
                    · simp only [hrl, if_true, if_false, Bool.false_eq_true, Bool.true_eq_false,
                        rowResultRecords_append, sendStatus, rowResultRecords,
                        hpwr, hslr, List.nil_append]
                      simp [countStatus, List.filter] at hIH2 ⊢
                      omega
                    · simp only [hrl, if_true, if_false, Bool.false_eq_true, Bool.true_eq_false,
                        rowResultRecords_append, sendStatus, rowResultRecords,
                        hpwr, hslr, List.nil_append]
                      simp [countStatus, List.filter] at hIH3 ⊢
                      omega
                    · intro r hr
                      simp only [hrl, if_true, if_false, Bool.false_eq_true, Bool.true_eq_false,
                        rowResultRecords_append, sendStatus, rowResultRecords,
                        hpwr, hslr, List.nil_append, List.mem_cons] at hr
                      rcases hr with h1 | h1
                      · left
                        rw [h1]
                      · exact hIH4 r h1

/-- C5: the run counters track the emitted row results exactly: at the end
of a run invocation (and, by the loop invariant `rowLoop_records`, at every
row boundary) `successCount` equals the number of success row results,
`failureCount` the number of failed row results, their sum the total number
of row results emitted by the invocation; every row result is success or
failed, and the emitted row indices are consecutive starting at the cursor —
exactly one row result per processed row. -/
theorem runWorkflow_rowResult_invariant (oracle : StepOracle) (runId : String)
    (steps : List WorkflowStep) (rowsLen : Nat) (settings : RunSettings)
    (resumeFrom : Nat) (initFlags : AgentFlags) (storageRowIndex : Int)
    (sched : CmdSched) :
    ((runWorkflow oracle runId steps rowsLen settings resumeFrom initFlags
        storageRowIndex sched).1.successCount +
      (runWorkflow oracle runId steps rowsLen settings resumeFrom initFlags
        storageRowIndex sched).1.failureCount =
      (rowResultRecords (runWorkflow oracle runId steps rowsLen settings resumeFrom initFlags
        storageRowIndex sched).2.2.2.1).length) ∧
    ((runWorkflow oracle runId steps rowsLen settings resumeFrom initFlags
        storageRowIndex sched).1.successCount =
      countStatus "success" (rowResultRecords (runWorkflow oracle runId steps rowsLen settings
        resumeFrom initFlags storageRowIndex sched).2.2.2.1)) ∧
    ((runWorkflow oracle runId steps rowsLen settings resumeFrom initFlags
        storageRowIndex sched).1.failureCount =
      countStatus "failed" (rowResultRecords (runWorkflow oracle runId steps rowsLen settings
        resumeFrom initFlags storageRowIndex sched).2.2.2.1)) ∧
    (∀ r ∈ rowResultRecords (runWorkflow oracle runId steps rowsLen settings resumeFrom initFlags
        storageRowIndex sched).2.2.2.1, r.2 = "success" ∨ r.2 = "failed") ∧
    ((rowResultRecords (runWorkflow oracle runId steps rowsLen settings resumeFrom initFlags
        storageRowIndex sched).2.2.2.1).map Prod.fst =
      List.range' (min resumeFrom rowsLen)
        (rowResultRecords (runWorkflow oracle runId steps rowsLen settings resumeFrom initFlags
          storageRowIndex sched).2.2.2.1).length) := by
  by_cases hks : initFlags.killSwitchEnabled = true
  · simp [runWorkflow, hks, rowResultRecords, countStatus]
  · rw [runWorkflow, if_neg hks]
    have H := rowLoop_records oracle runId settings steps rowsLen (rowsLen - resumeFrom)
      ⟨(resumeFrom : Int), 0, 0⟩ { initFlags with paused := false, stopped := false } sched
      (Nat.sub_le rowsLen resumeFrom)
    have hmin : rowsLen - (rowsLen - resumeFrom) = min resumeFrom rowsLen := by omega
    rw [hmin] at H
    match hrl : rowLoop oracle runId settings steps rowsLen (rowsLen - resumeFrom)
        ⟨(resumeFrom : Int), 0, 0⟩ { initFlags with paused := false, stopped := false } sched with
    | (progress2, flags2, sched2, evs, out) =>
      rw [hrl] at H
      simp only at H
      obtain ⟨H1, H2, H3, H4⟩ := H
      have hpart := countStatus_partition (rowResultRecords evs) H4
      cases out with
      | completed =>
        refine ⟨?_, ?_, ?_, ?_, ?_⟩
        · simp [hrl, rowResultRecords_append, rowResultRecords, sendStatus, H2, H3]
          omega
        · simp [hrl, rowResultRecords_append, rowResultRecords, sendStatus, H2]
        · simp [hrl, rowResultRecords_append, rowResultRecords, sendStatus, H3]
        · intro r hr
          apply H4
          simpa [hrl, rowResultRecords_append, rowResultRecords, sendStatus] using hr
        · simp [hrl, rowResultRecords_append, rowResultRecords, sendStatus, H1]
      | blocked =>
        refine ⟨?_, ?_, ?_, ?_, ?_⟩
        · simp [hrl, rowResultRecords, sendStatus, H2, H3]
          omega
        · simp [hrl, rowResultRecords, sendStatus, H2]
        · simp [hrl, rowResultRecords, sendStatus, H3]
        · intro r hr
          apply H4
          simpa [hrl, rowResultRecords, sendStatus] using hr
        · simp [hrl, rowResultRecords, sendStatus, H1]
      | stoppedEarly =>
        refine ⟨?_, ?_, ?_, ?_, ?_⟩
        · simp [hrl, rowResultRecords, sendStatus, H2, H3]
          omega
        · simp [hrl, rowResultRecords, sendStatus, H2]
        · simp [hrl, rowResultRecords, sendStatus, H3]
        · intro r hr
          apply H4
          simpa [hrl, rowResultRecords, sendStatus] using hr
        · simp [hrl, rowResultRecords, sendStatus, H1]
      | erroredEarly =>
        refine ⟨?_, ?_, ?_, ?_, ?_⟩
        · simp [hrl, rowResultRecords, sendStatus, H2, H3]
          omega
        · simp [hrl, rowResultRecords, sendStatus, H2]
        · simp [hrl, rowResultRecords, sendStatus, H3]
        · intro r hr
          apply H4
          simpa [hrl, rowResultRecords, sendStatus] using hr
        · simp [hrl, rowResultRecords, sendStatus, H1]
      | stuck =>
        refine ⟨?_, ?_, ?_, ?_, ?_⟩
        · simp [hrl, rowResultRecords, sendStatus, H2, H3]
          omega
        · simp [hrl, rowResultRecords, sendStatus, H2]
        · simp [hrl, rowResultRecords, sendStatus, H3]
        · intro r hr
          apply H4
          simpa [hrl, rowResultRecords, sendStatus] using hr
        · simp [hrl, rowResultRecords, sendStatus, H1]

/-- C6: every row result emitted by a run invocation started with cursor
`resumeFrom` has row index at least `resumeFrom`; a run restarted with
`resumeFrom = lastCompletedRow + 1` therefore never re-emits a row result
for any row index below that cursor. -/
theorem runWorkflow_rowResults_ge_cursor (oracle : StepOracle) (runId : String)
    (steps : List WorkflowStep) (rowsLen : Nat) (settings : RunSettings)
    (resumeFrom : Nat) (initFlags : AgentFlags) (storageRowIndex : Int)
    (sched : CmdSched) :
    ∀ r ∈ rowResultRecords (runWorkflow oracle runId steps rowsLen settings resumeFrom
        initFlags storageRowIndex sched).2.2.2.1, resumeFrom ≤ r.1 := by
  by_cases hks : initFlags.killSwitchEnabled = true
  · intro r hr
    simp [runWorkflow, hks, rowResultRecords] at hr
  · rw [runWorkflow, if_neg hks]
    have H := rowLoop_records oracle runId settings steps rowsLen (rowsLen - resumeFrom)
      ⟨(resumeFrom : Int), 0, 0⟩ { initFlags with paused := false, stopped := false } sched
      (Nat.sub_le rowsLen resumeFrom)
    match hrl : rowLoop oracle runId settings steps rowsLen (rowsLen - resumeFrom)
        ⟨(resumeFrom : Int), 0, 0⟩ { initFlags with paused := false, stopped := false } sched with
    | (progress2, flags2, sched2, evs, out) =>
      rw [hrl] at H
      simp only at H
      obtain ⟨H1, -, -, -⟩ := H
      have key : ∀ r ∈ rowResultRecords evs, resumeFrom ≤ r.1 := by
        intro r hr
        by_cases hle : resumeFrom ≤ rowsLen
        · have hm : r.1 ∈ (rowResultRecords evs).map Prod.fst :=
            List.mem_map_of_mem Prod.fst hr
          rw [H1] at hm
          have := (List.mem_range'_1.mp hm).1
          omega
        · have h0 : rowsLen - resumeFrom = 0 := by omega
          rw [h0, rowLoop] at hrl
          simp only [Prod.mk.injEq] at hrl
          obtain ⟨-, -, -, hevs, -⟩ := hrl
          rw [← hevs] at hr
          simp [rowResultRecords] at hr
      cases out with
      | completed =>
        intro r hr
        apply key
        simpa [hrl, rowResultRecords_append, rowResultRecords, sendStatus] using hr
      | blocked =>
        intro r hr
        apply key
        simpa [hrl, rowResultRecords, sendStatus] using hr
      | stoppedEarly =>
        intro r hr
        apply key
        simpa [hrl, rowResultRecords, sendStatus] using hr
      | erroredEarly =>
        intro r hr
        apply key
        simpa [hrl, rowResultRecords, sendStatus] using hr
      | stuck =>
        intro r hr
        apply key
        simpa [hrl, rowResultRecords, sendStatus] using hr

theorem runWorkflow_rowResult_invariant_witness :
    ((runWorkflow okOracle "r" [oneStep] 2 baseSettings 0 noFlags (-1) []).1.successCount +
      (runWorkflow okOracle "r" [oneStep] 2 baseSettings 0 noFlags (-1) []).1.failureCount =
      (rowResultRecords (runWorkflow okOracle "r" [oneStep] 2 baseSettings 0
        noFlags (-1) []).2.2.2.1).length) ∧
    (((0 : Nat), "success") ∈ rowResultRecords (runWorkflow okOracle "r" [oneStep] 2
        baseSettings 0 noFlags (-1) []).2.2.2.1 ∧
      (((0 : Nat), "success").2 = "success" ∨ ((0 : Nat), "success").2 = "failed")) :=
  ⟨(runWorkflow_rowResult_invariant okOracle "r" [oneStep] 2 baseSettings 0 noFlags (-1) []).1,
   by decide,
   (runWorkflow_rowResult_invariant okOracle "r" [oneStep] 2 baseSettings 0
       noFlags (-1) []).2.2.2.1 ((0 : Nat), "success") (by decide)⟩

theorem runWorkflow_rowResults_ge_cursor_witness :
    (((1 : Nat), "success") ∈ rowResultRecords (runWorkflow okOracle "r" [oneStep] 3
        baseSettings 1 noFlags (-1) []).2.2.2.1) ∧
    1 ≤ (((1 : Nat), "success")).1 :=
  ⟨by decide,
   runWorkflow_rowResults_ge_cursor okOracle "r" [oneStep] 3 baseSettings 1 noFlags (-1) []
     ((1 : Nat), "success") (by decide)⟩
